import Mathlib

set_option maxRecDepth 4000

/-!
Verification of the `mixfriend` preset encoder (`src/mixfriend.py`).

The Python module builds 240-byte Logic Pro Channel EQ preset files from
lists of band dictionaries.  This development gives a shallow embedding of
the encoder, `build_preset`, together with the constants it uses
(`HEADER`, `FOOTER`, `BAND_FIELD_ORDER`, `DEFAULT_Q`), and proves the
specification's claims about it.

Modelling conventions:
* Bytes are `Nat` values below 256; byte strings are `List Nat`.
* Python numbers are modelled as `ℚ`.  `struct.pack("<f", x)` is modelled
  by `packFloat`: round-to-nearest-even conversion to an IEEE-754 binary32
  bit pattern (`toF32`) followed by little-endian byte serialisation
  (`u32bytes`) — except that, as in CPython, a finite value whose binary32
  conversion is infinite is not packed but raises `OverflowError`
  ("float too large to pack with f format").  `ℚ` has no NaN.
* JSON band-dictionary values are modelled by `JVal` (numbers, booleans,
  and `null`); an absent key is `Option.none`.  Python exceptions are
  modelled by `Except Err`.
* A "valid" band (`validBand`) converts and its q, frequency and gain
  values pack without overflow; claims about successful encoding are
  stated over valid bands.
-/

namespace Mixfriend

/-- Little-endian serialisation of a 32-bit word into four bytes, as
`struct.pack("<I", n)` / the per-float output of `struct.pack("<f", ...)`. -/
def u32bytes (n : Nat) : List Nat :=
  [n % 256, n / 256 % 256, n / 65536 % 256, n / 16777216 % 256]

/-- Little-endian decoding of four bytes into a 32-bit word, as
`struct.unpack("<I", ...)`. -/
def u32dec : List Nat → Nat
  | [a, b, c, d] => a + b * 256 + c * 65536 + d * 16777216
  | _ => 0

/-- Fuel-driven bit counter: `bitsAux fuel n` is the bit length of `n`
provided `fuel ≥` that bit length. -/
def bitsAux : Nat → Nat → Nat
  | 0, _ => 0
  | fuel + 1, n => if n = 0 then 0 else bitsAux fuel (n / 2) + 1

/-- Bit length of a natural number (`natBits 0 = 0`, `natBits 5 = 3`). -/
def natBits (n : Nat) : Nat := bitsAux n n

/-- `2 ^ z` as a rational, for an integer exponent. -/
def qpow2 (z : ℤ) : ℚ :=
  if 0 ≤ z then ((2 ^ z.toNat : ℕ) : ℚ) else mkRat 1 (2 ^ (-z).toNat)

/-- Floor of the base-2 logarithm of a positive rational. -/
def floorLog2 (a : ℚ) : ℤ :=
  let e0 : ℤ := (natBits a.num.toNat : ℤ) - (natBits a.den : ℤ)
  if qpow2 e0 ≤ a then e0 else e0 - 1

/-- Floor of a nonnegative rational, as a natural number. -/
def rfloor (x : ℚ) : Nat := x.num.toNat / x.den

/-- `x * 2 ^ z`, computed on the numerator/denominator. -/
def qshift (x : ℚ) (z : ℤ) : ℚ :=
  if 0 ≤ z then mkRat (x.num * 2 ^ z.toNat) x.den
  else mkRat x.num (x.den * 2 ^ (-z).toNat)

/-- Round a nonnegative rational to the nearest natural number, ties to
even (compares `2 * x` with `2 * rfloor x + 1` by cross multiplication). -/
def roundEven (x : ℚ) : Nat :=
  let n := rfloor x
  let twice : ℤ := 2 * x.num
  let mid : ℤ := ((2 * n + 1 : ℕ) : ℤ) * (x.den : ℤ)
  if mid < twice then n + 1
  else if twice < mid then n
  else if n % 2 = 0 then n else n + 1

/-- IEEE-754 binary32 bit pattern of a rational, round to nearest, ties to
even; magnitudes rounding to or beyond `2 ^ 128` give the infinity bit
pattern (exponent field 255), which marks the values CPython's
`struct.pack("<f", ...)` refuses to pack (see `packFloat`). -/
def toF32Bits (x : ℚ) : Nat :=
  if x = 0 then 0
  else
    let s : Nat := if x < 0 then 2 ^ 31 else 0
    let a : ℚ := if x < 0 then -x else x
    let e : ℤ := floorLog2 a
    let mag : Nat :=
      if 128 ≤ e then 255 * 2 ^ 23
      else if e < -126 then roundEven (qshift a 149)
      else roundEven (qshift a (23 - e)) + (e + 126).toNat * 2 ^ 23
    s + mag

/-- The binary32 bit pattern as a 32-bit machine word. -/
def toF32 (x : ℚ) : Nat := toF32Bits x % 2 ^ 32

/-- Exact rational value of a binary32 bit pattern (`none` for the
infinity/NaN exponent). -/
def f32toQ (w : Nat) : Option ℚ :=
  let s : Nat := w / 2 ^ 31 % 2
  let e : Nat := w / 2 ^ 23 % 256
  let m : Nat := w % 2 ^ 23
  if e = 255 then none
  else
    let mag : ℚ :=
      if e = 0 then qshift (m : ℚ) (-149) else qshift ((2 ^ 23 + m : Nat) : ℚ) ((e : ℤ) - 150)
    some (if s = 1 then -mag else mag)

/-- The four little-endian bytes one float contributes on the success path
of `struct.pack("<ffff", ...)`. -/
def packBytes (x : ℚ) : List Nat := u32bytes (toF32 x)

/-- The binary32 conversion of `x` is finite (exponent field below 255).
A finite double failing this is exactly what CPython's
`struct.pack("<f", ...)` rejects with `OverflowError`. -/
def f32finite (x : ℚ) : Bool := toF32 x / 2 ^ 23 % 256 != 255

/-- JSON values that can populate a band dictionary entry.  (Float-literal
strings are outside the model.) -/
inductive JVal where
  | num (x : ℚ)
  | bool (b : Bool)
  | null
deriving DecidableEq

/-- A band dictionary: the four keys the encoder reads, each possibly
absent. -/
structure Band where
  frequency : Option JVal := none
  gain : Option JVal := none
  q : Option JVal := none
  enabled : Option JVal := none
deriving DecidableEq

/-- Python exceptions the encoder can raise.  `keyError` and `typeError`
arise from `band["frequency"]` and `float(...)`; `overflowError` from
`struct.pack("<f", ...)` on a finite value outside float32 range
("float too large to pack with f format"); `assertionError` from the
final length assert.  `shapeError` and `missingField` never arise from the
code: they model the spec's §7 error taxonomy (ShapeError,
MissingFieldError-with-band-index) so that claims naming them can be
stated and refuted. -/
inductive Err where
  | keyError (key : String)
  | typeError
  | overflowError
  | assertionError
  | shapeError
  | missingField (index : Nat)
deriving DecidableEq

instance {ε α : Type} [DecidableEq ε] [DecidableEq α] : DecidableEq (Except ε α) := fun x y =>
  match x, y with
  | .ok a, .ok b =>
      if h : a = b then .isTrue (by rw [h]) else .isFalse (fun hh => h (Except.ok.inj hh))
  | .error a, .error b =>
      if h : a = b then .isTrue (by rw [h]) else .isFalse (fun hh => h (Except.error.inj hh))
  | .ok _, .error _ => .isFalse (fun hh => Except.noConfusion hh)
  | .error _, .ok _ => .isFalse (fun hh => Except.noConfusion hh)

/-- Python `float(v)` on a `JVal`: numbers pass through, booleans become
0/1, `None` raises `TypeError`. -/
def pyFloat : JVal → Except Err ℚ
  | .num x => .ok x
  | .bool b => .ok (if b then 1 else 0)
  | .null => .error .typeError

/-- Python `float(band.get(key, default))`: the default is used when the
key is absent. -/
def floatGet (o : Option JVal) (default : ℚ) : Except Err ℚ :=
  match o with
  | none => .ok default
  | some v => pyFloat v

/-- The fixed file header, `struct.pack("<III8sI", 240, 1, 52,
b"GAMETSPP", 236)`. -/
def HEADER : List Nat :=
  u32bytes 240 ++ u32bytes 1 ++ u32bytes 52 ++
    [0x47, 0x41, 0x4d, 0x45, 0x54, 0x53, 0x50, 0x50] ++ u32bytes 236

/-- The 88-byte opaque footer constant (transcribed from the hex literal
in the source). -/
def FOOTER : List Nat :=
  [0x8f, 0xc2, 0x35, 0x3f, 0x00, 0x00, 0x00, 0x00,
   0x00, 0x00, 0x00, 0x00, 0x33, 0x33, 0x43, 0x41,
   0x00, 0x00, 0x00, 0x00, 0x00, 0x00, 0x00, 0x00,
   0x00, 0x00, 0x00, 0x00, 0x00, 0x00, 0x00, 0x40,
   0x00, 0x00, 0x00, 0x00, 0x00, 0x00, 0x20, 0x41,
   0x00, 0x00, 0x80, 0x3f, 0x00, 0x00, 0x00, 0xbf,
   0x00, 0x00, 0x00, 0x00, 0x00, 0x00, 0x80, 0x3f,
   0x00, 0x00, 0x00, 0x00, 0x00, 0x00, 0x80, 0x3f,
   0x00, 0x00, 0x70, 0x42, 0x00, 0x00, 0x00, 0x00,
   0x00, 0x00, 0x70, 0x42, 0x00, 0x00, 0x80, 0x3f,
   0x78, 0x38, 0x50, 0x4c, 0x08, 0x00, 0x00, 0x00]

/-- The band field order tuple from the source. -/
def BAND_FIELD_ORDER : List String := ["q", "enabled", "frequency", "gain"]

/-- Default Q factor, the source's `0.71`. -/
def DEFAULT_Q : ℚ := mkRat 71 100

/-- One `f` of `struct.pack`: emits the four little-endian bytes of the
binary32 conversion, or raises `OverflowError` when the finite input
converts to an infinity (CPython: "float too large to pack with f
format"). -/
def packFloat (x : ℚ) : Except Err (List Nat) :=
  if f32finite x then .ok (packBytes x) else .error .overflowError

/-- `struct.pack("<ffff", *values)`: pack the values left to right,
raising at the first out-of-range one. -/
def packList : List ℚ → Except Err (List Nat)
  | [] => .ok []
  | x :: xs => do
      let b ← packFloat x
      let bs ← packList xs
      pure (b ++ bs)

/-- `pack_band`: order the four values by `BAND_FIELD_ORDER` and pack them
as little-endian binary32 fields (`struct.pack("<ffff", *values)`). -/
def pack_band (q enabled frequency gain : ℚ) : Except Err (List Nat) :=
  let fields : String → ℚ := fun name =>
    if name = "q" then q
    else if name = "enabled" then enabled
    else if name = "frequency" then frequency
    else gain
  packList (BAND_FIELD_ORDER.map fields)

/-- Python `band["frequency"]`: raises `KeyError` when the key is
absent. -/
def getFreq (band : Band) : Except Err JVal :=
  match band.frequency with
  | some v => .ok v
  | none => .error (.keyError "frequency")

/-- The body of one iteration of `build_preset`'s loop: convert the four
fields of one band (in source order: q, enabled, frequency, gain) and pack
them. -/
def bandBytes (band : Band) : Except Err (List Nat) := do
  let q ← floatGet band.q DEFAULT_Q
  let enabled : ℚ := if band.enabled = some (.bool false) then 0 else 1
  let fv ← getFreq band
  let frequency ← pyFloat fv
  let gain ← floatGet band.gain 0
  pack_band q enabled frequency gain

/-- The loop of `build_preset`: concatenate the packed bands left to
right, propagating the first exception. -/
def bandLoop : List Band → Except Err (List Nat)
  | [] => .ok []
  | b :: rest => do
      let d ← bandBytes b
      let ds ← bandLoop rest
      pure (d ++ ds)

/-- `build_preset(bands_config)`: header, packed bands, footer, then the
`assert len(preset) == 240` self-check. -/
def build_preset (bands_config : List Band) : Except Err (List Nat) := do
  let band_data ← bandLoop bands_config
  let preset := HEADER ++ band_data ++ FOOTER
  if preset.length = 240 then pure preset else Except.error Err.assertionError

/-- A value Python's `float(...)` accepts in the model. -/
def numConv : JVal → Bool
  | .null => false
  | _ => true

/-- An optional field that converts when present. -/
def optConv : Option JVal → Bool
  | none => true
  | some v => numConv v

/-- The Q value `build_preset` uses for a band (meaningful when the band
is valid). -/
def qRat (b : Band) : ℚ := ((floatGet b.q DEFAULT_Q).toOption).getD 0

/-- The enabled-as-float value `build_preset` uses for a band. -/
def enabledRat (b : Band) : ℚ := if b.enabled = some (.bool false) then 0 else 1

/-- The frequency value `build_preset` uses for a band (meaningful when
the band is valid). -/
def freqRat (b : Band) : ℚ := (((getFreq b >>= pyFloat)).toOption).getD 0

/-- The gain value `build_preset` uses for a band (meaningful when the
band is valid). -/
def gainRat (b : Band) : ℚ := ((floatGet b.gain 0).toOption).getD 0

/-- A wellformed band specification: frequency present and convertible,
q and gain absent or convertible (enabled never raises), and the q,
frequency and gain values within finite binary32 range (outside it
CPython's `struct.pack` raises `OverflowError`; the enabled float is
always 0 or 1 and cannot overflow). -/
def validBand (b : Band) : Bool :=
  (match b.frequency with
   | some v => numConv v
   | none => false) && optConv b.q && optConv b.gain &&
    f32finite (qRat b) && f32finite (freqRat b) && f32finite (gainRat b)

/-- The 16-byte record a valid band contributes to the output. -/
def bandRecord (b : Band) : List Nat :=
  packBytes (qRat b) ++ packBytes (enabledRat b) ++ packBytes (freqRat b) ++
    packBytes (gainRat b)

/-- `l[off : off + n]` on byte strings. -/
def sliceBytes (l : List Nat) (off n : Nat) : List Nat := (l.drop off).take n

/-- Decode a 16-byte band record as four little-endian binary32 values. -/
def decodeRecord (r : List Nat) : List (Option ℚ) :=
  [f32toQ (u32dec (sliceBytes r 0 4)), f32toQ (u32dec (sliceBytes r 4 4)),
   f32toQ (u32dec (sliceBytes r 8 4)), f32toQ (u32dec (sliceBytes r 12 4))]

/-! Helper lemmas about the embedding. -/

theorem okBind {α β : Type} (a : α) (f : α → Except Err β) :
    (Except.ok a >>= f) = f a := rfl

theorem errBind {α β : Type} (e : Err) (f : α → Except Err β) :
    ((Except.error e : Except Err α) >>= f) = Except.error e := rfl

theorem packBytes_length (x : ℚ) : (packBytes x).length = 4 := rfl

theorem f32finite_enabledRat (b : Band) : f32finite (enabledRat b) = true := by
  rw [enabledRat]
  by_cases hen : b.enabled = some (.bool false)
  · rw [if_pos hen]; decide
  · rw [if_neg hen]; decide

/-- When all four values are within finite binary32 range, `pack_band`
succeeds and lays them out in the order fixed by `BAND_FIELD_ORDER`. -/
theorem pack_band_ok (q enabled frequency gain : ℚ) (h1 : f32finite q = true)
    (h2 : f32finite enabled = true) (h3 : f32finite frequency = true)
    (h4 : f32finite gain = true) :
    pack_band q enabled frequency gain =
      .ok (packBytes q ++ packBytes enabled ++ packBytes frequency ++ packBytes gain) := by
  simp [pack_band, BAND_FIELD_ORDER, packList, packFloat, h1, h2, h3, h4, okBind]

theorem bandRecord_length (b : Band) : (bandRecord b).length = 16 := by
  simp [bandRecord, packBytes, u32bytes]

theorem floatGet_isOk (o : Option JVal) (d : ℚ) (h : optConv o = true) :
    ∃ x, floatGet o d = .ok x := by
  cases o with
  | none => exact ⟨d, rfl⟩
  | some v => cases v <;> simp_all [optConv, numConv, floatGet, pyFloat]

theorem pyFloat_isOk (v : JVal) (h : numConv v = true) : ∃ x, pyFloat v = .ok x := by
  cases v <;> simp_all [numConv, pyFloat]

theorem validBand_parts (b : Band) (hb : validBand b = true) :
    (∃ v, b.frequency = some v ∧ numConv v = true) ∧
      optConv b.q = true ∧ optConv b.gain = true ∧
      f32finite (qRat b) = true ∧ f32finite (freqRat b) = true ∧
      f32finite (gainRat b) = true := by
  unfold validBand at hb
  cases hf : b.frequency with
  | none => rw [hf] at hb; simp at hb
  | some v =>
      rw [hf] at hb
      simp only [Bool.and_eq_true] at hb
      exact ⟨⟨v, rfl, hb.1.1.1.1.1⟩, hb.1.1.1.1.2, hb.1.1.1.2, hb.1.1.2, hb.1.2, hb.2⟩

/-- On a valid band, the loop body succeeds and produces that band's
record. -/
theorem bandBytes_eq (b : Band) (hb : validBand b = true) :
    bandBytes b = .ok (bandRecord b) := by
  obtain ⟨⟨fv, hfv, hfc⟩, hqc, hgc, hqf, hff, hgf2⟩ := validBand_parts b hb
  obtain ⟨qv, hq⟩ := floatGet_isOk b.q DEFAULT_Q hqc
  obtain ⟨gv, hg⟩ := floatGet_isOk b.gain 0 hgc
  obtain ⟨fr, hfr⟩ := pyFloat_isOk fv hfc
  have hgf : getFreq b = .ok fv := by unfold getFreq; rw [hfv]
  have hqv : qRat b = qv := by rw [qRat, hq]; rfl
  have hfrv : freqRat b = fr := by rw [freqRat, hgf, okBind, hfr]; rfl
  have hgv : gainRat b = gv := by rw [gainRat, hg]; rfl
  have hpack := pack_band_ok qv (enabledRat b) fr gv (hqv ▸ hqf)
    (f32finite_enabledRat b) (hfrv ▸ hff) (hgv ▸ hgf2)
  rw [bandBytes, hq, okBind, hgf]
  simp only [okBind]
  rw [hfr]
  simp only [okBind]
  rw [hg]
  simp only [okBind]
  rw [show (if b.enabled = some (.bool false) then (0 : ℚ) else 1) = enabledRat b from rfl,
    hpack, bandRecord, hqv, hfrv, hgv]

/-- On a list of valid bands, the loop succeeds and produces the
concatenated records. -/
theorem bandLoop_eq (bands : List Band) (hv : ∀ b ∈ bands, validBand b = true) :
    bandLoop bands = .ok ((bands.map bandRecord).flatten) := by
  induction bands with
  | nil => rfl
  | cons b t ih =>
      have hb : validBand b = true := hv b (by simp)
      have ht : ∀ x ∈ t, validBand x = true := fun x hx => hv x (by simp [hx])
      simp [bandLoop, bandBytes_eq b hb, ih ht, okBind]

theorem records_length (bands : List Band) :
    ((bands.map bandRecord).flatten).length = 16 * bands.length := by
  induction bands with
  | nil => rfl
  | cons b t ih => simp [ih, bandRecord_length]; ring

theorem HEADER_length : HEADER.length = 24 := rfl

theorem FOOTER_length : FOOTER.length = 88 := rfl

/-- On a valid 8-band input, `build_preset` succeeds with header, records,
footer. -/
theorem preset_length (bands : List Band) :
    (HEADER ++ (bands.map bandRecord).flatten ++ FOOTER).length =
      112 + 16 * bands.length := by
  rw [List.length_append, List.length_append, HEADER_length, FOOTER_length, records_length]
  omega

theorem build_preset_eq (bands : List Band) (h8 : bands.length = 8)
    (hv : ∀ b ∈ bands, validBand b = true) :
    build_preset bands = .ok (HEADER ++ (bands.map bandRecord).flatten ++ FOOTER) := by
  have hlen : (HEADER ++ (bands.map bandRecord).flatten ++ FOOTER).length = 240 := by
    rw [preset_length, h8]
  unfold build_preset
  rw [bandLoop_eq bands hv]
  simp only [okBind]
  rw [if_pos hlen]
  rfl

/-- On an all-valid input of any other length, the loop still succeeds but
the final length assert fails. -/
theorem build_preset_wrong_length (bands : List Band) (h8 : bands.length ≠ 8)
    (hv : ∀ b ∈ bands, validBand b = true) :
    build_preset bands = .error .assertionError := by
  have hlen : (HEADER ++ (bands.map bandRecord).flatten ++ FOOTER).length ≠ 240 := by
    rw [preset_length]
    omega
  unfold build_preset
  rw [bandLoop_eq bands hv]
  simp only [okBind]
  rw [if_neg hlen]

/-- Dropping `16 * i` bytes from a concatenation of 16-byte blocks (with a
trailing suffix) lands at the start of block `i`. -/
theorem drop_blocks (ds : List (List Nat)) (suffix : List Nat)
    (h : ∀ d ∈ ds, d.length = 16) :
    ∀ i (hi : i < ds.length),
      (ds.flatten ++ suffix).drop (16 * i) =
        ds.get ⟨i, hi⟩ ++ ((ds.drop (i + 1)).flatten ++ suffix) := by
  induction ds with
  | nil => intro i hi; exact absurd hi (by simp)
  | cons d t ih =>
      intro i hi
      cases i with
      | zero => simp
      | succ j =>
          have hd : d.length = 16 := h d (by simp)
          have h16 : 16 * (j + 1) = d.length + 16 * j := by rw [hd]; ring
          have hj : j < t.length := by simpa using hi
          have ht : ∀ x ∈ t, x.length = 16 := fun x hx => h x (by simp [hx])
          calc ((d :: t).flatten ++ suffix).drop (16 * (j + 1))
              = (d ++ (t.flatten ++ suffix)).drop (d.length + 16 * j) := by
                rw [h16]; simp
            _ = (t.flatten ++ suffix).drop (16 * j) := List.drop_append _
            _ = t.get ⟨j, hj⟩ ++ ((t.drop (j + 1)).flatten ++ suffix) := ih ht j hj
            _ = (d :: t).get ⟨j + 1, hi⟩ ++ (((d :: t).drop (j + 2)).flatten ++ suffix) := by
                simp

/-- Dropping to offset `24 + 16 * i` in a valid output lands at the start
of band `i`'s record. -/
theorem preset_drop_record (bands : List Band) (i : Nat) (hi : i < bands.length) :
    (HEADER ++ (bands.map bandRecord).flatten ++ FOOTER).drop (24 + 16 * i) =
      bandRecord (bands.get ⟨i, hi⟩) ++
        (((bands.map bandRecord).drop (i + 1)).flatten ++ FOOTER) := by
  have hhl : HEADER.length = 24 := HEADER_length
  have h1 : (HEADER ++ ((bands.map bandRecord).flatten ++ FOOTER)).drop (HEADER.length + 16 * i) =
      ((bands.map bandRecord).flatten ++ FOOTER).drop (16 * i) := List.drop_append _
  have hi' : i < (bands.map bandRecord).length := by simpa using hi
  have h2 := drop_blocks (bands.map bandRecord) FOOTER
      (by intro d hd; obtain ⟨b, _, rfl⟩ := List.mem_map.mp hd; exact bandRecord_length b) i hi'
  rw [hhl] at h1
  rw [List.append_assoc, h1, h2]
  congr 1
  simp

/-- The last 88 bytes of a valid output are the footer. -/
theorem preset_drop_footer (bands : List Band) (h8 : bands.length = 8) :
    (HEADER ++ (bands.map bandRecord).flatten ++ FOOTER).drop 152 = FOOTER := by
  refine List.drop_left' ?_
  rw [List.length_append, HEADER_length, records_length, h8]

/-- Inversion: a successful `build_preset` output is header ++ loop data ++
footer and has length 240. -/
theorem build_preset_ok_inv (bands : List Band) (out : List Nat)
    (h : build_preset bands = .ok out) :
    ∃ data, bandLoop bands = .ok data ∧ out = HEADER ++ data ++ FOOTER ∧
      out.length = 240 ∧ data.length = 128 := by
  unfold build_preset at h
  cases hbl : bandLoop bands with
  | error e => rw [hbl] at h; exact absurd h (by simp [errBind])
  | ok data =>
      rw [hbl] at h
      simp only [okBind] at h
      by_cases hc : (HEADER ++ data ++ FOOTER).length = 240
      · rw [if_pos hc] at h
        have hout : out = HEADER ++ data ++ FOOTER := (Except.ok.inj h).symm
        refine ⟨data, rfl, hout, by rw [hout]; exact hc, ?_⟩
        have := hc
        rw [List.length_append, List.length_append, HEADER_length, FOOTER_length] at this
        omega
      · rw [if_neg hc] at h
        exact absurd h (by simp)

theorem u32dec_u32bytes (w : Nat) : u32dec (u32bytes w) = w % 2 ^ 32 := by
  simp only [u32bytes, u32dec]
  omega

theorem toF32_lt (x : ℚ) : toF32 x < 2 ^ 32 := Nat.mod_lt _ (by norm_num)

theorem u32dec_packBytes (x : ℚ) : u32dec (packBytes x) = toF32 x := by
  rw [packBytes, u32dec_u32bytes, toF32]
  omega

theorem record4_length (q e f g : ℚ) :
    (packBytes q ++ packBytes e ++ packBytes f ++ packBytes g).length = 16 := by
  simp [packBytes, u32bytes]

/-- Slices of a band record embedded at offset `off` of a byte string. -/
theorem record_field_slices (out : List Nat) (off : Nat) (q e f g : ℚ)
    (rest : List Nat)
    (h : out.drop off = packBytes q ++ packBytes e ++ packBytes f ++ packBytes g ++ rest) :
    sliceBytes out off 16 = packBytes q ++ packBytes e ++ packBytes f ++ packBytes g ∧
      sliceBytes out off 4 = packBytes q ∧
      sliceBytes out (off + 4) 4 = packBytes e ∧
      sliceBytes out (off + 8) 4 = packBytes f ∧
      sliceBytes out (off + 12) 4 = packBytes g := by
  refine ⟨?_, ?_, ?_, ?_, ?_⟩
  · rw [sliceBytes, h]
    exact List.take_left' (record4_length q e f g)
  · rw [sliceBytes, h]
    simp [packBytes, u32bytes]
  · rw [sliceBytes, ← List.drop_drop, h]
    simp [packBytes, u32bytes]
  · rw [sliceBytes, ← List.drop_drop, h]
    simp [packBytes, u32bytes]
  · rw [sliceBytes, ← List.drop_drop, h]
    simp [packBytes, u32bytes]

/-- The decoded fields of a band record embedded at offset `off`. -/
theorem record_field_words (out : List Nat) (off : Nat) (q e f g : ℚ)
    (rest : List Nat)
    (h : out.drop off = packBytes q ++ packBytes e ++ packBytes f ++ packBytes g ++ rest) :
    u32dec (sliceBytes out off 4) = toF32 q ∧
      u32dec (sliceBytes out (off + 4) 4) = toF32 e ∧
      u32dec (sliceBytes out (off + 8) 4) = toF32 f ∧
      u32dec (sliceBytes out (off + 12) 4) = toF32 g := by
  obtain ⟨-, h1, h2, h3, h4⟩ := record_field_slices out off q e f g rest h
  exact ⟨by rw [h1, u32dec_packBytes], by rw [h2, u32dec_packBytes],
    by rw [h3, u32dec_packBytes], by rw [h4, u32dec_packBytes]⟩

theorem bandBytes_no_freq (b : Band) (hq : optConv b.q = true) (hf : b.frequency = none) :
    bandBytes b = .error (.keyError "frequency") := by
  obtain ⟨qv, hqv⟩ := floatGet_isOk b.q DEFAULT_Q hq
  rw [bandBytes, hqv]
  simp only [okBind]
  rw [getFreq, hf]
  rfl

theorem bandBytes_null_freq (b : Band) (hq : optConv b.q = true)
    (hf : b.frequency = some .null) : bandBytes b = .error .typeError := by
  obtain ⟨qv, hqv⟩ := floatGet_isOk b.q DEFAULT_Q hq
  rw [bandBytes, hqv]
  simp only [okBind]
  rw [getFreq, hf]
  rfl

/-- The loop propagates the first failing band's error, provided all
earlier bands convert. -/
theorem bandLoop_err (e : Err) : ∀ (bands : List Band) (i : Nat) (hi : i < bands.length),
    (∀ j (hj : j < i), validBand (bands.get ⟨j, by omega⟩) = true) →
    bandBytes (bands.get ⟨i, hi⟩) = .error e → bandLoop bands = .error e := by
  intro bands
  induction bands with
  | nil => intro i hi; exact absurd hi (by simp)
  | cons b t ih =>
      intro i hi hprev he
      cases i with
      | zero =>
          have he0 : bandBytes b = .error e := he
          rw [bandLoop, he0]
          rfl
      | succ j =>
          have hb : validBand b = true := hprev 0 (Nat.succ_pos j)
          have hj : j < t.length := by simpa using hi
          have ht : bandLoop t = .error e :=
            ih j hj (fun k hk => hprev (k + 1) (by omega)) he
          rw [bandLoop, bandBytes_eq b hb]
          simp only [okBind]
          rw [ht]
          rfl

theorem build_preset_err (bands : List Band) (e : Err)
    (h : bandLoop bands = .error e) : build_preset bands = .error e := by
  rw [build_preset, h]
  rfl

/-! Concrete inputs used by the witnesses, following the spec's §8
scenario and simple default-heavy bands. -/

/-- A typical enabled band. -/
def exOn : Band :=
  { frequency := some (.num 100), gain := some (.num 0),
    q := some (.num (mkRat 71 100)), enabled := some (.bool true) }

/-- A disabled low-pass band. -/
def exOff : Band :=
  { frequency := some (.num 8000), gain := some (.num (-3)),
    q := some (.num (mkRat 71 100)), enabled := some (.bool false) }

/-- The spec's §8 scenario: seven enabled bands and a disabled eighth. -/
def exBands : List Band := [exOn, exOn, exOn, exOn, exOn, exOn, exOn, exOff]

/-- A band giving only the required frequency. -/
def exPlain : Band := { frequency := some (.num 100) }

/-- Eight default-heavy bands. -/
def exPlains : List Band := List.replicate 8 exPlain

/-- The spec's field-order probe band: Q = 1, frequency = 2, gain = 3. -/
def exFO : Band := { frequency := some (.num 2), q := some (.num 1), gain := some (.num 3) }

/-- Eight bands starting with the field-order probe. -/
def exFOBands : List Band := exFO :: List.replicate 7 exPlain

/-- A band whose frequency key is absent. -/
def exNoFreq : Band := { gain := some (.num 0) }

/-- A band whose frequency 2^200 is numerically convertible but beyond
finite binary32 range. -/
def exBig : Band := { frequency := some (.num (mkRat (2 ^ 200) 1)) }

/-! The claims. -/

/-- C1: for every list of exactly 8 valid band specifications (frequency
present and numerically convertible, q and gain absent or convertible, and
q/frequency/gain within finite binary32 range so that `struct.pack` does
not raise `OverflowError`), `build_preset` returns a byte sequence of
exactly 240 bytes. -/
theorem c1_encode_length (bands : List Band) (h8 : bands.length = 8)
    (hv : ∀ b ∈ bands, validBand b = true) :
    ∃ out, build_preset bands = .ok out ∧ out.length = 240 := by
  refine ⟨_, build_preset_eq bands h8 hv, ?_⟩
  rw [preset_length, h8]

theorem c1_encode_length_witness :
    ∃ out, build_preset exBands = .ok out ∧ out.length = 240 :=
  c1_encode_length exBands (by decide) (by decide)

/-- C4 counterexample: the fixed header emitted in step 1 occupies 24
bytes of the output, not 20 as the claim states. -/
theorem c4_counterexample : HEADER.length = 24 ∧ ¬ HEADER.length = 20 := by decide

/-- C4 (amended): for every valid 8-band input (convertible and within
binary32 range), the fixed header occupies exactly 24 bytes, so the output
decomposes as Header(24 bytes) ‖ 8 band records(128 bytes) ‖ Footer(88
bytes). -/
theorem c4_amended (bands : List Band) (h8 : bands.length = 8)
    (hv : ∀ b ∈ bands, validBand b = true) :
    ∃ records, build_preset bands = .ok (HEADER ++ records ++ FOOTER) ∧
      HEADER.length = 24 ∧ records.length = 128 ∧ FOOTER.length = 88 :=
  ⟨_, build_preset_eq bands h8 hv, rfl, by rw [records_length, h8], rfl⟩

theorem c4_amended_witness :
    ∃ records, build_preset exBands = .ok (HEADER ++ records ++ FOOTER) ∧
      HEADER.length = 24 ∧ records.length = 128 ∧ FOOTER.length = 88 :=
  c4_amended exBands (by decide) (by decide)

/-- C7: the footer bytes (offsets 152 through 239) of any two encoder
outputs are byte-identical and equal the fixed 88-byte footer constant,
independent of the inputs. -/
theorem c7_footer_constant (bands1 bands2 : List Band) (out1 out2 : List Nat)
    (h1 : build_preset bands1 = .ok out1) (h2 : build_preset bands2 = .ok out2) :
    sliceBytes out1 152 88 = sliceBytes out2 152 88 ∧ sliceBytes out1 152 88 = FOOTER := by
  have key : ∀ (bands : List Band) (out : List Nat), build_preset bands = .ok out →
      sliceBytes out 152 88 = FOOTER := by
    intro bands out h
    obtain ⟨data, -, hout, -, hdata⟩ := build_preset_ok_inv bands out h
    have hdrop : out.drop 152 = FOOTER := by
      rw [hout]
      refine List.drop_left' ?_
      rw [List.length_append, HEADER_length, hdata]
    rw [sliceBytes, hdrop, ← FOOTER_length, List.take_length]
  exact ⟨(key bands1 out1 h1).trans (key bands2 out2 h2).symm, key bands1 out1 h1⟩

theorem c7_footer_constant_witness :
    sliceBytes (HEADER ++ (exBands.map bandRecord).flatten ++ FOOTER) 152 88 =
        sliceBytes (HEADER ++ (exPlains.map bandRecord).flatten ++ FOOTER) 152 88 ∧
      sliceBytes (HEADER ++ (exBands.map bandRecord).flatten ++ FOOTER) 152 88 = FOOTER :=
  c7_footer_constant exBands exPlains _ _ (by decide) (by decide)

/-- C8 counterexample: on the empty band list `build_preset` fails with an
`AssertionError` from its length self-check, not with a `ShapeError`. -/
theorem c8_counterexample :
    build_preset [] = .error .assertionError ∧
      ¬ build_preset ([] : List Band) = .error .shapeError := by decide

/-- C8 (amended): for every band list whose length is not exactly 8 and
whose bands are all valid (convert and pack within binary32 range),
`build_preset` fails with the `AssertionError` raised by its final length
self-check and produces no output bytes; the encoder never silently pads
or truncates the list. -/
theorem c8_amended (bands : List Band) (h8 : bands.length ≠ 8)
    (hv : ∀ b ∈ bands, validBand b = true) :
    build_preset bands = .error .assertionError :=
  build_preset_wrong_length bands h8 hv

theorem c8_amended_witness : build_preset [exOn] = .error .assertionError :=
  c8_amended [exOn] (by decide) (by decide)

/-- C10 counterexample: a one-band list whose frequency 2^200 is
numerically convertible, yet `build_preset` raises `OverflowError` from
`struct.pack` inside the loop, never reaching the final length assert, so
the claim as stated (AssertionError under convertibility alone) fails. -/
theorem c10_counterexample :
    build_preset [exBig] = .error .overflowError ∧
      ¬ build_preset [exBig] = .error .assertionError := by decide

/-- C10 (amended): for every band list of length n ≠ 8 whose bands are all
valid (convert and pack within binary32 range), `build_preset` completes
its packing loop (assembling header + 16·n record bytes + footer, of
length 24 + 16·n + 88) and only then fails with the Python
`AssertionError` of its final length self-check, which rejects the
assembly exactly when n ≠ 8; there is no up-front length check. -/
theorem c10_assert_after_assembly (bands : List Band) (h8 : bands.length ≠ 8)
    (hv : ∀ b ∈ bands, validBand b = true) :
    bandLoop bands = .ok ((bands.map bandRecord).flatten) ∧
      ((bands.map bandRecord).flatten).length = 16 * bands.length ∧
      (HEADER ++ (bands.map bandRecord).flatten ++ FOOTER).length =
        24 + 16 * bands.length + 88 ∧
      ((24 + 16 * bands.length + 88 = 240) ↔ bands.length = 8) ∧
      build_preset bands = .error .assertionError := by
  refine ⟨bandLoop_eq bands hv, records_length bands, ?_, by omega,
    build_preset_wrong_length bands h8 hv⟩
  rw [preset_length]
  omega

theorem c10_assert_after_assembly_witness :
    bandLoop [exOn] = .ok (([exOn].map bandRecord).flatten) ∧
      (([exOn].map bandRecord).flatten).length = 16 * [exOn].length ∧
      (HEADER ++ ([exOn].map bandRecord).flatten ++ FOOTER).length =
        24 + 16 * [exOn].length + 88 ∧
      ((24 + 16 * [exOn].length + 88 = 240) ↔ [exOn].length = 8) ∧
      build_preset [exOn] = .error .assertionError :=
  c10_assert_after_assembly [exOn] (by decide) (by decide)

theorem sliceBytes_append_left (xs ys : List Nat) (off n : Nat) (h : off + n ≤ xs.length) :
    sliceBytes (xs ++ ys) off n = sliceBytes xs off n := by
  unfold sliceBytes
  rw [List.drop_append_of_le_length (by omega), List.take_append_of_le_length]
  rw [List.length_drop]
  omega

/-- C3: for every valid 8-band input (convertible and within binary32
range), the output begins with little-endian 32-bit words 240 (offset 0),
1 (offset 4), 52 (offset 8), the 8 ASCII bytes "GAMETSPP" (offset 12), and
the little-endian 32-bit word 236 (offset 20); decoding these fields
yields exactly these constants. -/
theorem c3_header_fields (bands : List Band) (h8 : bands.length = 8)
    (hv : ∀ b ∈ bands, validBand b = true) :
    ∃ out, build_preset bands = .ok out ∧
      sliceBytes out 0 4 = u32bytes 240 ∧ u32dec (sliceBytes out 0 4) = 240 ∧
      sliceBytes out 4 4 = u32bytes 1 ∧ u32dec (sliceBytes out 4 4) = 1 ∧
      sliceBytes out 8 4 = u32bytes 52 ∧ u32dec (sliceBytes out 8 4) = 52 ∧
      sliceBytes out 12 8 = "GAMETSPP".toList.map Char.toNat ∧
      sliceBytes out 20 4 = u32bytes 236 ∧ u32dec (sliceBytes out 20 4) = 236 := by
  refine ⟨_, build_preset_eq bands h8 hv, ?_⟩
  have hs : ∀ off n, off + n ≤ 24 →
      sliceBytes (HEADER ++ (bands.map bandRecord).flatten ++ FOOTER) off n =
        sliceBytes HEADER off n := by
    intro off n h
    rw [List.append_assoc]
    exact sliceBytes_append_left HEADER _ off n (by rw [HEADER_length]; omega)
  rw [hs 0 4 (by omega), hs 4 4 (by omega), hs 8 4 (by omega), hs 12 8 (by omega),
    hs 20 4 (by omega)]
  refine ⟨by decide, by decide, by decide, by decide, by decide, by decide, by decide,
    by decide, by decide⟩

theorem c3_header_fields_witness :
    ∃ out, build_preset exBands = .ok out ∧
      sliceBytes out 0 4 = u32bytes 240 ∧ u32dec (sliceBytes out 0 4) = 240 ∧
      sliceBytes out 4 4 = u32bytes 1 ∧ u32dec (sliceBytes out 4 4) = 1 ∧
      sliceBytes out 8 4 = u32bytes 52 ∧ u32dec (sliceBytes out 8 4) = 52 ∧
      sliceBytes out 12 8 = "GAMETSPP".toList.map Char.toNat ∧
      sliceBytes out 20 4 = u32bytes 236 ∧ u32dec (sliceBytes out 20 4) = 236 :=
  c3_header_fields exBands (by decide) (by decide)

theorem DEFAULT_Q_eq : DEFAULT_Q = 71 / 100 := by
  rw [DEFAULT_Q, Rat.mkRat_eq_div]
  norm_num

/-- C2: for every valid 8-band input (convertible and within binary32
range), the 16-byte record at offset 24 + 16·i is the four little-endian
binary32 fields in the exact order [Q, enabled-as-float, frequency, gain];
in particular a band with Q = 1, frequency = 2, gain = 3 decodes
positionally to [1, (0 or 1), 2, 3]. -/
theorem c2_record_field_order (bands : List Band) (h8 : bands.length = 8)
    (hv : ∀ x ∈ bands, validBand x = true) (i : Nat) (hi : i < bands.length)
    (b : Band) (hb : bands.get ⟨i, hi⟩ = b) :
    ∃ out, build_preset bands = .ok out ∧
      sliceBytes out (24 + 16 * i) 16 =
        packBytes (qRat b) ++ packBytes (enabledRat b) ++ packBytes (freqRat b) ++
          packBytes (gainRat b) ∧
      (qRat b = 1 → freqRat b = 2 → gainRat b = 3 →
        (enabledRat b = 0 ∨ enabledRat b = 1) ∧
        decodeRecord (sliceBytes out (24 + 16 * i) 16) =
          [some 1, some (enabledRat b), some 2, some 3]) := by
  have hdrop := preset_drop_record bands i hi
  rw [hb, bandRecord] at hdrop
  obtain ⟨h16, -, -, -, -⟩ :=
    record_field_slices _ (24 + 16 * i) (qRat b) (enabledRat b) (freqRat b) (gainRat b) _ hdrop
  refine ⟨_, build_preset_eq bands h8 hv, h16, ?_⟩
  · intro hq hf hg
    have hdrop0 : (packBytes (qRat b) ++ packBytes (enabledRat b) ++ packBytes (freqRat b) ++
          packBytes (gainRat b)).drop 0 =
        packBytes (qRat b) ++ packBytes (enabledRat b) ++ packBytes (freqRat b) ++
          packBytes (gainRat b) ++ [] := by simp
    obtain ⟨g1, g2, g3, g4⟩ :=
      record_field_words _ 0 (qRat b) (enabledRat b) (freqRat b) (gainRat b) _ hdrop0
    simp only [Nat.zero_add] at g1 g2 g3 g4
    rw [h16, decodeRecord, g1, g2, g3, g4, hq, hf, hg]
    by_cases hen : b.enabled = some (.bool false)
    · have he0 : enabledRat b = 0 := by rw [enabledRat, if_pos hen]
      rw [he0]
      exact ⟨Or.inl rfl, by decide⟩
    · have he1 : enabledRat b = 1 := by rw [enabledRat, if_neg hen]
      rw [he1]
      exact ⟨Or.inr rfl, by decide⟩

theorem c2_record_field_order_witness :
    ∃ out, build_preset exFOBands = .ok out ∧
      sliceBytes out (24 + 16 * 0) 16 =
        packBytes (qRat exFO) ++ packBytes (enabledRat exFO) ++ packBytes (freqRat exFO) ++
          packBytes (gainRat exFO) ∧
      (qRat exFO = 1 → freqRat exFO = 2 → gainRat exFO = 3 →
        (enabledRat exFO = 0 ∨ enabledRat exFO = 1) ∧
        decodeRecord (sliceBytes out (24 + 16 * 0) 16) =
          [some 1, some (enabledRat exFO), some 2, some 3]) :=
  c2_record_field_order exFOBands (by decide) (by decide) 0 (by decide) exFO (by decide)

/-- C5: for every valid 8-band input (convertible and within binary32
range), the second float of band i's record is exactly 0.0 when the band's
enabled field is the literal boolean false, and exactly 1.0 in every other
case (true, absent, or any non-false value). -/
theorem c5_enabled_flag (bands : List Band) (h8 : bands.length = 8)
    (hv : ∀ x ∈ bands, validBand x = true) (i : Nat) (hi : i < bands.length)
    (b : Band) (hb : bands.get ⟨i, hi⟩ = b) :
    ∃ out, build_preset bands = .ok out ∧
      (b.enabled = some (.bool false) →
        u32dec (sliceBytes out (24 + 16 * i + 4) 4) = toF32 0 ∧
        f32toQ (u32dec (sliceBytes out (24 + 16 * i + 4) 4)) = some 0) ∧
      (b.enabled ≠ some (.bool false) →
        u32dec (sliceBytes out (24 + 16 * i + 4) 4) = toF32 1 ∧
        f32toQ (u32dec (sliceBytes out (24 + 16 * i + 4) 4)) = some 1) := by
  have hdrop := preset_drop_record bands i hi
  rw [hb, bandRecord] at hdrop
  obtain ⟨-, g2, -, -⟩ :=
    record_field_words _ (24 + 16 * i) (qRat b) (enabledRat b) (freqRat b) (gainRat b) _ hdrop
  refine ⟨_, build_preset_eq bands h8 hv, ?_, ?_⟩
  · intro hen
    have he0 : enabledRat b = 0 := by rw [enabledRat, if_pos hen]
    rw [g2, he0]
    exact ⟨rfl, by decide⟩
  · intro hen
    have he1 : enabledRat b = 1 := by rw [enabledRat, if_neg hen]
    rw [g2, he1]
    exact ⟨rfl, by decide⟩

theorem c5_enabled_flag_witness :
    ∃ out, build_preset exBands = .ok out ∧
      (exOff.enabled = some (.bool false) →
        u32dec (sliceBytes out (24 + 16 * 7 + 4) 4) = toF32 0 ∧
        f32toQ (u32dec (sliceBytes out (24 + 16 * 7 + 4) 4)) = some 0) ∧
      (exOff.enabled ≠ some (.bool false) →
        u32dec (sliceBytes out (24 + 16 * 7 + 4) 4) = toF32 1 ∧
        f32toQ (u32dec (sliceBytes out (24 + 16 * 7 + 4) 4)) = some 1) :=
  c5_enabled_flag exBands (by decide) (by decide) 7 (by decide) exOff (by decide)

/-- C6: for every valid 8-band input (convertible and within binary32
range), a band with q absent gets the binary32 encoding of the default
0.71 as its first field, and a band with gain absent gets the binary32
encoding of 0.0 (which decodes to exactly 0) as its fourth field. -/
theorem c6_defaults (bands : List Band) (h8 : bands.length = 8)
    (hv : ∀ x ∈ bands, validBand x = true) (i : Nat) (hi : i < bands.length)
    (b : Band) (hb : bands.get ⟨i, hi⟩ = b) :
    ∃ out, build_preset bands = .ok out ∧
      (b.q = none → u32dec (sliceBytes out (24 + 16 * i) 4) = toF32 (71 / 100)) ∧
      (b.gain = none →
        u32dec (sliceBytes out (24 + 16 * i + 12) 4) = toF32 0 ∧
        f32toQ (u32dec (sliceBytes out (24 + 16 * i + 12) 4)) = some 0) := by
  have hdrop := preset_drop_record bands i hi
  rw [hb, bandRecord] at hdrop
  obtain ⟨g1, -, -, g4⟩ :=
    record_field_words _ (24 + 16 * i) (qRat b) (enabledRat b) (freqRat b) (gainRat b) _ hdrop
  refine ⟨_, build_preset_eq bands h8 hv, ?_, ?_⟩
  · intro hq
    have hqd : qRat b = DEFAULT_Q := by rw [qRat, hq]; rfl
    rw [g1, hqd, DEFAULT_Q_eq]
  · intro hg
    have hg0 : gainRat b = 0 := by rw [gainRat, hg]; rfl
    rw [g4, hg0]
    exact ⟨rfl, by decide⟩

theorem c6_defaults_witness :
    ∃ out, build_preset exPlains = .ok out ∧
      (exPlain.q = none → u32dec (sliceBytes out (24 + 16 * 0) 4) = toF32 (71 / 100)) ∧
      (exPlain.gain = none →
        u32dec (sliceBytes out (24 + 16 * 0 + 12) 4) = toF32 0 ∧
        f32toQ (u32dec (sliceBytes out (24 + 16 * 0 + 12) 4)) = some 0) :=
  c6_defaults exPlains (by decide) (by decide) 0 (by decide) exPlain (by decide)

/-- C9 counterexample: a band list with a band lacking frequency makes
`build_preset` fail with Python's `KeyError("frequency")`, not with a
`MissingFieldError`, and the error is identical whether the offending band
is at index 0 or at index 1 — so it cannot identify the band index. -/
theorem c9_counterexample :
    build_preset [exNoFreq, exOn] = .error (.keyError "frequency") ∧
      build_preset [exOn, exNoFreq] = .error (.keyError "frequency") ∧
      build_preset [exNoFreq, exOn] = build_preset [exOn, exNoFreq] ∧
      ¬ build_preset [exNoFreq, exOn] = .error (.missingField 0) ∧
      ¬ build_preset [exOn, exNoFreq] = .error (.missingField 1) := by decide

/-- C9 (amended): if band i is the first offending band (all earlier bands
are valid — they convert and pack within binary32 range — and band i's own
q converts; the frequency failure occurs at conversion time, before any
packing of band i), then an absent frequency makes `build_preset` fail
with `KeyError("frequency")` and a `null` frequency with `TypeError`; no
byte sequence is returned and the error does not carry the band index. -/
theorem c9_amended (bands : List Band) (i : Nat) (hi : i < bands.length)
    (hprev : ∀ j (hj : j < i), validBand (bands.get ⟨j, by omega⟩) = true)
    (hq : optConv (bands.get ⟨i, hi⟩).q = true) :
    ((bands.get ⟨i, hi⟩).frequency = none →
      build_preset bands = .error (.keyError "frequency")) ∧
    ((bands.get ⟨i, hi⟩).frequency = some .null →
      build_preset bands = .error .typeError) := by
  constructor
  · intro hf
    exact build_preset_err bands _
      (bandLoop_err _ bands i hi hprev (bandBytes_no_freq _ hq hf))
  · intro hf
    exact build_preset_err bands _
      (bandLoop_err _ bands i hi hprev (bandBytes_null_freq _ hq hf))

theorem c9_amended_witness :
    ((([exOn, exNoFreq].get ⟨1, by decide⟩).frequency = none →
      build_preset [exOn, exNoFreq] = .error (.keyError "frequency")) ∧
    ((([exOn, exNoFreq].get ⟨1, by decide⟩).frequency = some .null →
      build_preset [exOn, exNoFreq] = .error .typeError))) :=
  c9_amended [exOn, exNoFreq] 1 (by decide)
    (fun j hj => by
      have h0 : j = 0 := by omega
      subst h0
      show validBand exOn = true
      decide) (by decide)

end Mixfriend
